import Mathlib

/-!
Verification development for the wallpaper-gallery progressive loading pipeline
(`src/stores/wallpaper.js`).  The Pinia store's state and actions are shallowly
embedded: the reactive refs become fields of an explicit `StoreState`, the
external collaborators (`fetch` + `response.json()`, `decodeData` /
`workerDecodeAndParse`) become an `Env` of response tables, and each async
action becomes a function from state (and environment) to result × state.

Concurrency note: the event loop is single threaded; a `Promise.all` over the
per-category loads starts every load and settles only after all of them settle,
with every load's cache side effects applied.  We model this by running the
loads left to right, threading the state through all of them, and combining
the outcomes afterwards (first error wins, as with `Promise.all`).  The
background loader is fire-and-forget in the source (`initSeries` does not await
it); since it only ever touches fields the tail of `initSeries` does not touch,
we evaluate the state after the background task completes.

A ghost field `fetchLog` records the URL of every network fetch issued, so that
"no network call happens" claims are statable.
-/

/-- A JavaScript string-or-missing value: `undefined`, `null`, or a string.
The wallpaper documents' URL and path fields have exactly this shape. -/
inductive JStr where
  | undef
  | jnull
  | jstr (s : String)
deriving DecidableEq, Repr

/-- JavaScript truthiness restricted to `JStr`: only a non-empty string is truthy. -/
def jsTruthy : JStr → Bool
  | .jstr s => s != ""
  | _ => false

/-- JavaScript `a || b` on `JStr` values. -/
def jsOr (a b : JStr) : JStr :=
  if jsTruthy a then a else b

/-- The string carried by a `JStr`; only applied to values known to be truthy
(hence strings). -/
def JStr.str : JStr → String
  | .jstr s => s
  | _ => ""

/-- One wallpaper record (`Item` in the spec).  The spread in
`transformWallpaperUrls` keeps all fields and overrides the four URL fields,
so we carry the relevant fields explicitly. -/
structure Wallpaper where
  id : String
  path : JStr
  thumbnailPath : JStr
  previewPath : JStr
  url : JStr
  thumbnailUrl : JStr
  previewUrl : JStr
  downloadUrl : JStr
  format : JStr
  size : Nat
deriving DecidableEq, Repr

/-- One entry of a series manifest (`CategoryDescriptor`).  The loader only
ever reads `.file`; `label`/`count` are ignored by every code path modelled. -/
structure Category where
  file : String
deriving DecidableEq, Repr

/-- Modelled from the spec: the static per-series configuration entries of
`SERIES_CONFIG` (`src/utils/constants.js`, not among the provided sources),
each exposing an index URL, a category base URL, a legacy data URL and a
display name. -/
structure SeriesConfig where
  name : String
  indexUrl : String
  categoryBaseUrl : String
  dataUrl : String
deriving DecidableEq, Repr

/-- Modelled from the spec: `SERIES_CONFIG` (`src/utils/constants.js`, not among
the provided sources) is a static table keyed by series id with the three
configured series (desktop / mobile / avatar groupings); unknown ids are
absent. -/
def SERIES_CONFIG : String → Option SeriesConfig
  | "desktop" => some ⟨"电脑壁纸", "data/desktop/index.json", "data/desktop/categories", "data/desktop.json"⟩
  | "mobile" => some ⟨"手机壁纸", "data/mobile/index.json", "data/mobile/categories", "data/mobile.json"⟩
  | "avatar" => some ⟨"头像", "data/avatar/index.json", "data/avatar/categories", "data/avatar.json"⟩
  | _ => none

/-- Modelled from the spec: `buildImageUrl` (`src/utils/format.js`, not among
the provided sources) deterministically joins the configured asset base with a
relative path and appends a cache-busting version parameter. -/
def buildImageUrl (p : String) : String :=
  "https://wallpaper.061129.xyz/images/" ++ p ++ "?v=1"

/-- The decoded series manifest (`SeriesManifest`).  When the fetched index
document carries an encoded blob, `loadSeriesIndex` rebuilds this record with
the decoded category list substituted in. -/
structure IndexData where
  generatedAt : JStr
  series : JStr
  seriesName : JStr
  total : Nat
  categoryCount : Nat
  categories : List Category
  schema : JStr
  env : JStr
deriving DecidableEq, Repr

/-- A fetched (and JSON-parsed) series index document: the optional encoded
`blob` / `payload` fields plus the document's plain fields. -/
structure IndexDoc where
  blob : Option String
  payload : Option String
  plain : IndexData
deriving DecidableEq, Repr

/-- A fetched (and JSON-parsed) category document: optional encoded
`blob` / `payload` fields and an optional plain `wallpapers` array. -/
structure CatDoc where
  blob : Option String
  payload : Option String
  wallpapers : Option (List Wallpaper)
deriving DecidableEq, Repr

/-- The JSON value a category blob decodes to: either an object with a
`wallpapers` array or a bare array of items (`decoded.wallpapers || decoded`). -/
inductive CatDecoded where
  | obj (wallpapers : List Wallpaper)
  | arr (wallpapers : List Wallpaper)
deriving DecidableEq, Repr

/-- `decoded.wallpapers || decoded`: the item list either shape yields
(a JavaScript array is always truthy, so an empty `wallpapers` field is kept). -/
def CatDecoded.toList : CatDecoded → List Wallpaper
  | .obj ws => ws
  | .arr ws => ws

/-- JavaScript truthiness for an optional string field: present and non-empty. -/
def truthyOptStr : Option String → Option String
  | some s => if s = "" then none else some s
  | none => none

/-- `data.blob || data.payload`: the first truthy of the two encoded fields. -/
def encodedOf (blob payload : Option String) : Option String :=
  match truthyOptStr blob with
  | some s => some s
  | none => truthyOptStr payload

/-- The external world: per-URL fetch outcomes (`fetch` + `response.json()`,
`.error` for a non-ok status or transport failure, carrying the thrown
message) and per-blob decode outcomes (`decodeDataWithWorker`, i.e.
`workerDecodeAndParse` with fallback to `decodeData` + `JSON.parse`; the
worker-vs-main-thread choice is invisible to the store, so only the final
outcome is modelled).  Index and category URLs live in distinct tables because
their documents are consumed with different shapes. -/
structure Env where
  fetchIndexDoc : String → Except String IndexDoc
  fetchCatDoc : String → Except String CatDoc
  decodeIndex : String → Except String (List Category)
  decodeCategory : String → Except String CatDecoded

/-- The store's reactive state (`LoaderState` plus the two caches), with the
ghost `fetchLog` recording each issued network fetch's URL. -/
structure StoreState where
  seriesIndexCache : List (String × IndexData)
  categoryCache : List (String × List Wallpaper)
  wallpapers : List Wallpaper
  currentLoadedSeries : String
  loadedCategories : List String
  loading : Bool
  error : Option String
  isBackgroundLoading : Bool
  initialLoadedCount : Nat
  fetchLog : List String
deriving DecidableEq, Repr

/-- The store's initial state: empty caches, empty list, no error. -/
def initialState : StoreState :=
  { seriesIndexCache := []
    categoryCache := []
    wallpapers := []
    currentLoadedSeries := ""
    loadedCategories := []
    loading := false
    error := none
    isBackgroundLoading := false
    initialLoadedCount := 0
    fetchLog := [] }

/-- Association lookup in a cache object; insertion prepends, so the first
match is the current binding (JavaScript property update semantics). -/
def cacheLookup {α : Type} : List (String × α) → String → Option α
  | [], _ => none
  | (k, v) :: rest, key => if k = key then some v else cacheLookup rest key

/-- `transformWallpaperUrls` (store, lines 99-107): spread the item and
override the four URL fields; a present relative path wins, otherwise the
pre-resolved URL, otherwise `''` (or `null` for the preview). -/
def transformWallpaperUrls (w : Wallpaper) : Wallpaper :=
  { w with
    url := if jsTruthy w.path then .jstr (buildImageUrl w.path.str) else jsOr w.url (.jstr "")
    thumbnailUrl := if jsTruthy w.thumbnailPath then .jstr (buildImageUrl w.thumbnailPath.str) else jsOr w.thumbnailUrl (.jstr "")
    previewUrl := if jsTruthy w.previewPath then .jstr (buildImageUrl w.previewPath.str) else jsOr w.previewUrl .jnull
    downloadUrl := if jsTruthy w.path then .jstr (buildImageUrl w.path.str) else jsOr w.downloadUrl (.jstr "") }

/-- `loadSeriesIndex` (store, lines 116-168): cached manifest, else validate the
series, fetch the index document, decode the blob when present (decode failure
falls back to the raw document), and memoize. -/
def loadSeriesIndex (env : Env) (st : StoreState) (seriesId : String) :
    Except String IndexData × StoreState :=
  match cacheLookup st.seriesIndexCache seriesId with
  | some cached => (.ok cached, st)
  | none =>
    match SERIES_CONFIG seriesId with
    | none => (.error ("Invalid series: " ++ seriesId), st)
    | some seriesConfig =>
      let st1 := { st with fetchLog := st.fetchLog ++ [seriesConfig.indexUrl] }
      match env.fetchIndexDoc seriesConfig.indexUrl with
      | .error e => (.error e, st1)
      | .ok data =>
        let indexData :=
          match encodedOf data.blob data.payload with
          | some encoded =>
            match env.decodeIndex encoded with
            | .ok categories => { data.plain with categories := categories }
            | .error _ => data.plain
          | none => data.plain
        (.ok indexData,
         { st1 with seriesIndexCache := (seriesId, indexData) :: st1.seriesIndexCache })

/-- The category cache key, `` `${seriesId}:${categoryFile}` ``. -/
def catKey (seriesId categoryFile : String) : String :=
  seriesId ++ ":" ++ categoryFile

/-- `loadCategory` (store, lines 173-222): cached list, else validate the
series, fetch the category document, decode the blob when present (decode
failure degrades to the plain `wallpapers` field or `[]`), resolve every
item's URLs, and memoize. -/
def loadCategory (env : Env) (st : StoreState) (seriesId categoryFile : String) :
    Except String (List Wallpaper) × StoreState :=
  let cacheKey := catKey seriesId categoryFile
  match cacheLookup st.categoryCache cacheKey with
  | some cached => (.ok cached, st)
  | none =>
    match SERIES_CONFIG seriesId with
    | none => (.error ("Invalid series: " ++ seriesId), st)
    | some seriesConfig =>
      let categoryUrl := seriesConfig.categoryBaseUrl ++ "/" ++ categoryFile
      let st1 := { st with fetchLog := st.fetchLog ++ [categoryUrl] }
      match env.fetchCatDoc categoryUrl with
      | .error e => (.error e, st1)
      | .ok data =>
        let wallpaperList :=
          match encodedOf data.blob data.payload with
          | some encoded =>
            match env.decodeCategory encoded with
            | .ok decoded => decoded.toList
            | .error _ => data.wallpapers.getD []
          | none => data.wallpapers.getD []
        let transformedList := wallpaperList.map transformWallpaperUrls
        (.ok transformedList,
         { st1 with categoryCache := (cacheKey, transformedList) :: st1.categoryCache })

/-- `Promise.all(batch.map(cat => loadCategory(seriesId, cat.file)))`: every
load runs (all cache side effects apply); the combined promise is the list of
results, or the first rejection. -/
def runBatch (env : Env) (seriesId : String) :
    StoreState → List Category → Except String (List (List Wallpaper)) × StoreState
  | st, [] => (.ok [], st)
  | st, c :: rest =>
    let (r, st1) := loadCategory env st seriesId c.file
    let (rs, st2) := runBatch env seriesId st1 rest
    match r, rs with
    | .ok l, .ok ls => (.ok (l :: ls), st2)
    | .error e, _ => (.error e, st2)
    | .ok _, .error e => (.error e, st2)

/-- One iteration of the background loop (store, lines 289-317): filter out
already-loaded categories, load the rest in one `Promise.all`; on success
append the batch's items in one update and mark the files loaded; on failure
log and continue (nothing from the batch is appended or marked). -/
def processBatch (env : Env) (seriesId : String) (st : StoreState)
    (batch : List Category) : StoreState :=
  let unloadedBatch := batch.filter fun c => !(st.loadedCategories.contains c.file)
  if unloadedBatch.isEmpty then st
  else
    match runBatch env seriesId st unloadedBatch with
    | (.ok batchResults, st1) =>
      { st1 with
        wallpapers := st1.wallpapers ++ batchResults.flatten
        loadedCategories := st1.loadedCategories ++ unloadedBatch.map (fun (c : Category) => c.file) }
    | (.error _, st1) => st1

/-- The `for (const batch of batches)` loop of `loadRemainingCategories`. -/
def bgFold (env : Env) (seriesId : String) :
    StoreState → List (List Category) → StoreState
  | st, [] => st
  | st, b :: bs => bgFold env seriesId (processBatch env seriesId st b) bs

/-- The batch partition built by `loadRemainingCategories` with
`BATCH_SIZE = 3`: `categories.slice(i, i + 3)` for `i = 0, 3, 6, …`. -/
def batchesOf3 : List Category → List (List Category)
  | [] => []
  | [a] => [[a]]
  | [a, b] => [[a, b]]
  | a :: b :: c :: rest => [a, b, c] :: batchesOf3 rest

/-- The epilogue of `loadRemainingCategories` (store, lines 320-322): clear the
background flag and refresh the stable count to the final merged length. -/
def finalizeBg (st : StoreState) : StoreState :=
  { st with isBackgroundLoading := false, initialLoadedCount := st.wallpapers.length }

/-- `loadRemainingCategories` (store, lines 280-323): process the batches in
order, then finalize.  The inter-batch 150 ms pause is a pure yield with no
state effect and is not modelled. -/
def loadRemainingCategories (env : Env) (st : StoreState) (seriesId : String)
    (categories : List Category) : StoreState :=
  finalizeBg (bgFold env seriesId st (batchesOf3 categories))

/-- `e.message || '加载壁纸数据失败'`. -/
def errMessage (e : String) : String :=
  if e = "" then "加载壁纸数据失败" else e

/-- `initSeries` (store, lines 227-275): skip when the same series is already
loaded, else reset the loader state, load the index, load the first three
categories, merge, snapshot the count, and run the background loader on the
remainder.  Every error is caught: the promise always fulfills, with the
error recorded in state.  The fire-and-forget background task is evaluated to
completion (see the header note). -/
def initSeries (env : Env) (st : StoreState) (seriesId : String)
    (forceRefresh : Bool) : Except String Unit × StoreState :=
  if !forceRefresh && st.currentLoadedSeries == seriesId && st.wallpapers.length > 0 then
    (.ok (), st)
  else
    let st0 := { st with
      loading := true
      error := none
      currentLoadedSeries := seriesId
      loadedCategories := []
      isBackgroundLoading := false
      initialLoadedCount := 0 }
    match loadSeriesIndex env st0 seriesId with
    | (.error e, st1) =>
      (.ok (), { st1 with error := some (errMessage e), wallpapers := [], loading := false })
    | (.ok indexData, st1) =>
      let initialCategories := indexData.categories.take 3
      match runBatch env seriesId st1 initialCategories with
      | (.error e, st2) =>
        (.ok (), { st2 with error := some (errMessage e), wallpapers := [], loading := false })
      | (.ok categoryDataArrays, st2) =>
        let st3 := { st2 with
          wallpapers := categoryDataArrays.flatten
          loadedCategories := st2.loadedCategories ++ initialCategories.map (fun (c : Category) => c.file) }
        let st4 := { st3 with initialLoadedCount := st3.wallpapers.length }
        let remainingCategories := indexData.categories.drop 3
        if remainingCategories.isEmpty then
          (.ok (), { st4 with loading := false })
        else
          let st5 := { st4 with isBackgroundLoading := true }
          let st6 := loadRemainingCategories env st5 seriesId remainingCategories
          (.ok (), { st6 with loading := false })

/-- `loadAllCategories` (store, lines 328-350): with no cached index, await
`loadSeriesIndex` and return (its rejection propagates — this `await` is not
inside a try); with a cached index, run the background loader over every
not-yet-loaded category. -/
def loadAllCategories (env : Env) (st : StoreState) (seriesId : String) :
    Except String Unit × StoreState :=
  match cacheLookup st.seriesIndexCache seriesId with
  | none =>
    let (r, st1) := loadSeriesIndex env st seriesId
    match r with
    | .error e => (.error e, st1)
    | .ok _ => (.ok (), st1)
  | some indexData =>
    let unloadedCategories := indexData.categories.filter
      fun c => !(st.loadedCategories.contains c.file)
    if unloadedCategories.isEmpty then (.ok (), st)
    else
      let st1 := { st with loading := true }
      let st2 := loadRemainingCategories env st1 seriesId unloadedCategories
      (.ok (), { st2 with loading := false })

/-- `getWallpaperIndex` (store, lines 362-364): `findIndex`, `-1` when absent. -/
def getWallpaperIndex (st : StoreState) (id : String) : Int :=
  match st.wallpapers.findIdx? (fun w => w.id == id) with
  | some i => (i : Int)
  | none => -1

/-- `getNextWallpaper` (store, lines 380-386): the element after the found
index when one exists, else `null`. -/
def getNextWallpaper (st : StoreState) (id : String) : Option Wallpaper :=
  let index := getWallpaperIndex st id
  if index < (st.wallpapers.length : Int) - 1 then
    st.wallpapers[(index + 1).toNat]?
  else
    none

/-- Character-level prefix test; this is the semantics of JavaScript
`String.prototype.startsWith`. -/
def charsPre : List Char → List Char → Bool
  | [], _ => true
  | _ :: _, [] => false
  | a :: as, b :: bs => a == b && charsPre as bs

/-- JavaScript `key.startsWith(p)` on Lean strings. -/
def strStartsWith (s p : String) : Bool :=
  charsPre p.data s.data

/-- `clearCache` (store, lines 391-406): with a series id, delete that series'
index entry and every category entry whose key starts with `` `${seriesId}:` ``;
with none, wipe both caches. -/
def clearCache (st : StoreState) (seriesId : Option String) : StoreState :=
  match seriesId with
  | some sid =>
    { st with
      seriesIndexCache := st.seriesIndexCache.filter fun (kv : String × IndexData) => !(kv.1 == sid)
      categoryCache := st.categoryCache.filter fun (kv : String × List Wallpaper) => !(strStartsWith kv.1 (sid ++ ":")) }
  | none => { st with seriesIndexCache := [], categoryCache := [] }

/-- Present-as-string test on a `JStr` (a value that is neither `undefined`
nor `null`). -/
def JStr.isStr : JStr → Bool
  | .jstr _ => true
  | _ => false

/-- URL-resolution totality of one item: `url`, `thumbnailUrl`, `downloadUrl`
are strings, and `previewUrl` is a string or exactly `null`. -/
def urlTotal (w : Wallpaper) : Bool :=
  w.url.isStr && w.thumbnailUrl.isStr && w.downloadUrl.isStr &&
    (w.previewUrl.isStr || w.previewUrl == JStr.jnull)

/-- The manifest `loadSeriesIndex` derives from a fetched index document:
the decoded category list substituted in on decode success, the raw document
otherwise. -/
def indexFromDoc (env : Env) (doc : IndexDoc) : IndexData :=
  match encodedOf doc.blob doc.payload with
  | some encoded =>
    match env.decodeIndex encoded with
    | .ok categories => { doc.plain with categories := categories }
    | .error _ => doc.plain
  | none => doc.plain

/-- The item list `loadCategory` derives for a category file on a cache miss
(empty when the fetch fails, which `loadCategory` turns into a rejection). -/
def itemsFromEnv (env : Env) (seriesConfig : SeriesConfig) (categoryFile : String) :
    List Wallpaper :=
  match env.fetchCatDoc (seriesConfig.categoryBaseUrl ++ "/" ++ categoryFile) with
  | .error _ => []
  | .ok data =>
    (match encodedOf data.blob data.payload with
     | some encoded =>
       match env.decodeCategory encoded with
       | .ok decoded => decoded.toList
       | .error _ => data.wallpapers.getD []
     | none => data.wallpapers.getD []).map transformWallpaperUrls

/-- The fetch for a category's document succeeds in the given environment. -/
def fetchOK (env : Env) (seriesConfig : SeriesConfig) (c : Category) : Prop :=
  ∃ d, env.fetchCatDoc (seriesConfig.categoryBaseUrl ++ "/" ++ c.file) = .ok d

/-- Every cached category entry of the given series agrees with what the
environment would produce for its file (trivially true for an empty cache;
preserved by every load, since entries are written exactly once from the same
environment). -/
def cacheOK (env : Env) (seriesConfig : SeriesConfig) (seriesId : String)
    (st : StoreState) : Prop :=
  ∀ f, cacheLookup st.categoryCache (catKey seriesId f) = none ∨
    cacheLookup st.categoryCache (catKey seriesId f) =
      some (itemsFromEnv env seriesConfig f)

/-- The fields of the store a pure cache operation leaves untouched. -/
def uiFrame (st st' : StoreState) : Prop :=
  st'.wallpapers = st.wallpapers ∧
  st'.loadedCategories = st.loadedCategories ∧
  st'.currentLoadedSeries = st.currentLoadedSeries ∧
  st'.loading = st.loading ∧
  st'.error = st.error ∧
  st'.isBackgroundLoading = st.isBackgroundLoading ∧
  st'.initialLoadedCount = st.initialLoadedCount ∧
  st'.seriesIndexCache = st.seriesIndexCache

/-- A plain (unencoded) wallpaper record used by the concrete test fixtures. -/
def mkItem (n : String) : Wallpaper :=
  { id := n
    path := .jstr (n ++ ".jpg")
    thumbnailPath := .jstr (n ++ ".t.jpg")
    previewPath := .undef
    url := .undef
    thumbnailUrl := .undef
    previewUrl := .undef
    downloadUrl := .undef
    format := .jstr "JPG"
    size := 100 }

/-- The plain part of the test index document: four categories. -/
def idxPlain : IndexData :=
  { generatedAt := .jstr "2025-12-26"
    series := .jstr "desktop"
    seriesName := .jstr "电脑壁纸"
    total := 4
    categoryCount := 4
    categories := [⟨"a.json"⟩, ⟨"b.json"⟩, ⟨"c.json"⟩, ⟨"d.json"⟩]
    schema := .jstr "v2"
    env := .jstr "prod" }

/-- A concrete environment for witnesses and counterexamples: a plain index
with four categories, plain category documents `a`–`d`, a category `e` whose
fetch fails, a category `g` whose blob decodes to garbage, and failures
everywhere else. -/
def testEnv : Env :=
  { fetchIndexDoc := fun u =>
      if u = "data/desktop/index.json" then .ok ⟨none, none, idxPlain⟩
      else .error "HTTP error! status: 404"
    fetchCatDoc := fun u =>
      if u = "data/desktop/categories/a.json" then .ok ⟨none, none, some [mkItem "a1"]⟩
      else if u = "data/desktop/categories/b.json" then .ok ⟨none, none, some [mkItem "b1"]⟩
      else if u = "data/desktop/categories/c.json" then .ok ⟨none, none, some [mkItem "c1"]⟩
      else if u = "data/desktop/categories/d.json" then .ok ⟨none, none, some [mkItem "d1"]⟩
      else if u = "data/desktop/categories/e.json" then .error "HTTP error! status: 500"
      else if u = "data/desktop/categories/g.json" then .ok ⟨some "BLOB1", none, some [mkItem "g1"]⟩
      else .error "HTTP error! status: 404"
    decodeIndex := fun _ => .error "decode failed"
    decodeCategory := fun _ => .error "decode failed" }

theorem cacheLookup_cons {α : Type} (k : String) (v : α) (l : List (String × α)) (key : String) :
    cacheLookup ((k, v) :: l) key = if k = key then some v else cacheLookup l key := rfl

theorem jsOr_isStr_of_default_str (a : JStr) (s : String) :
    (jsOr a (JStr.jstr s)).isStr = true := by
  cases a
  · rfl
  · rfl
  · simp only [jsOr]; split <;> rfl

theorem jsOr_null_shape (a : JStr) :
    (jsOr a JStr.jnull).isStr = true ∨ jsOr a JStr.jnull = JStr.jnull := by
  cases a
  · right; rfl
  · right; rfl
  · simp only [jsOr]; split
    · left; rfl
    · right; rfl

theorem urlTotal_transform (w : Wallpaper) : urlTotal (transformWallpaperUrls w) = true := by
  simp only [urlTotal, transformWallpaperUrls, Bool.and_eq_true, Bool.or_eq_true]
  refine ⟨⟨⟨?_, ?_⟩, ?_⟩, ?_⟩
  · split
    · rfl
    · exact jsOr_isStr_of_default_str w.url ""
  · split
    · rfl
    · exact jsOr_isStr_of_default_str w.thumbnailUrl ""
  · split
    · rfl
    · exact jsOr_isStr_of_default_str w.downloadUrl ""
  · split
    · left; rfl
    · rcases jsOr_null_shape w.previewUrl with h | h
      · left; exact h
      · right; simp [h]

theorem cacheLookup_some_mem {α : Type} (l : List (String × α)) (k : String) (v : α)
    (h : cacheLookup l k = some v) : (k, v) ∈ l := by
  induction l with
  | nil => simp [cacheLookup] at h
  | cons kv rest ih =>
    rcases kv with ⟨k', v'⟩
    rw [cacheLookup_cons] at h
    by_cases hk : k' = k
    · simp [hk] at h
      subst hk h
      exact List.mem_cons_self _ _
    · simp [hk] at h
      exact List.mem_cons_of_mem _ (ih h)

/-- C10.  For a non-empty merged list and an id that occurs nowhere in it,
`getNextWallpaper` returns the first wallpaper of the list (not `null`):
`findIndex` yields `-1`, which passes the `index < length - 1` guard, and
`wallpapers[0]` is returned. -/
theorem getNextWallpaper_absent_id_returns_head (st : StoreState) (id : String)
    (hne : st.wallpapers ≠ [])
    (habs : ∀ w ∈ st.wallpapers, w.id ≠ id) :
    getNextWallpaper st id = st.wallpapers.head? := by
  have hidx : st.wallpapers.findIdx? (fun w => w.id == id) = none := by
    refine List.findIdx?_eq_none_iff.mpr ?_
    intro w hw
    simp [habs w hw]
  have hlen : (0 : Int) < (st.wallpapers.length : Int) := by
    have := List.length_pos.mpr hne
    exact_mod_cast this
  rw [getNextWallpaper, getWallpaperIndex, hidx]
  simp only
  rw [if_pos (by omega)]
  have h0 : ((-1 : Int) + 1).toNat = 0 := rfl
  rw [h0]
  cases st.wallpapers with
  | nil => simp
  | cons a l => simp

theorem getNextWallpaper_absent_id_witness :
    ((mkItem "a1" :: [] : List Wallpaper) ≠ [] ∧
      (∀ w ∈ ({ initialState with wallpapers := [mkItem "a1"] } : StoreState).wallpapers,
        w.id ≠ "zz")) ∧
    getNextWallpaper { initialState with wallpapers := [mkItem "a1"] } "zz" =
      ({ initialState with wallpapers := [mkItem "a1"] } : StoreState).wallpapers.head? :=
  ⟨⟨by decide, by decide⟩,
    getNextWallpaper_absent_id_returns_head
      { initialState with wallpapers := [mkItem "a1"] } "zz" (by decide) (by decide)⟩

/-- C6.  URL-resolution totality: provided every cached category list already
satisfies it (the write-once invariant), every item in any list `loadCategory`
resolves to has string `url`, `thumbnailUrl`, `downloadUrl` and a
string-or-null `previewUrl`; and the invariant is preserved. -/
theorem loadCategory_urlTotal (env : Env) (st : StoreState) (S f : String)
    (hinv : ∀ kv ∈ st.categoryCache, ∀ w ∈ kv.2, urlTotal w = true) :
    (∀ l, (loadCategory env st S f).1 = .ok l → ∀ w ∈ l, urlTotal w = true) ∧
    (∀ kv ∈ (loadCategory env st S f).2.categoryCache, ∀ w ∈ kv.2, urlTotal w = true) := by
  rcases hc : cacheLookup st.categoryCache (catKey S f) with _ | cached
  · rcases hcfg : SERIES_CONFIG S with _ | cfg
    · constructor
      · intro l hl
        simp [loadCategory, hc, hcfg] at hl
      · intro kv hkv
        simp only [loadCategory, hc, hcfg] at hkv ⊢
        exact hinv kv hkv
    · rcases hf : env.fetchCatDoc (cfg.categoryBaseUrl ++ "/" ++ f) with e | data
      · constructor
        · intro l hl
          simp [loadCategory, hc, hcfg, hf] at hl
        · intro kv hkv
          simp only [loadCategory, hc, hcfg, hf] at hkv ⊢
          exact hinv kv hkv
      · constructor
        · intro l hl w hw
          simp only [loadCategory, hc, hcfg, hf, Except.ok.injEq] at hl
          rw [← hl] at hw
          rcases List.mem_map.mp hw with ⟨w0, _, hw0⟩
          rw [← hw0]
          exact urlTotal_transform w0
        · intro kv hkv w hw
          simp only [loadCategory, hc, hcfg, hf, List.mem_cons] at hkv
          rcases hkv with hkv | hkv
          · rw [hkv] at hw
            rcases List.mem_map.mp hw with ⟨w0, _, hw0⟩
            rw [← hw0]
            exact urlTotal_transform w0
          · exact hinv kv hkv w hw
  · have hmem := cacheLookup_some_mem _ _ _ hc
    constructor
    · intro l hl
      simp only [loadCategory, hc, Except.ok.injEq] at hl
      rw [← hl]
      exact hinv _ hmem
    · intro kv hkv
      simp only [loadCategory, hc] at hkv
      exact hinv kv hkv

theorem loadCategory_urlTotal_witness :
    (∀ kv ∈ initialState.categoryCache, ∀ w ∈ kv.2, urlTotal w = true) ∧
    urlTotal (transformWallpaperUrls (mkItem "a1")) = true :=
  ⟨by decide,
    (loadCategory_urlTotal testEnv initialState "desktop" "a.json" (by decide)).1
      (([mkItem "a1"] : List Wallpaper).map transformWallpaperUrls) rfl
      (transformWallpaperUrls (mkItem "a1")) (by decide)⟩

/-- C9.  Degrade-not-fail: when a category document fetches fine but its
encoded blob fails to decode, `loadCategory` still resolves — to the
URL-resolved transform of the document's plain `wallpapers` list when
present, otherwise to the empty list — instead of rejecting. -/
theorem loadCategory_decode_degrades (env : Env) (st : StoreState) (S f : String)
    (cfg : SeriesConfig) (doc : CatDoc) (enc e : String)
    (hmiss : cacheLookup st.categoryCache (catKey S f) = none)
    (hcfg : SERIES_CONFIG S = some cfg)
    (hfetch : env.fetchCatDoc (cfg.categoryBaseUrl ++ "/" ++ f) = .ok doc)
    (henc : encodedOf doc.blob doc.payload = some enc)
    (hdec : env.decodeCategory enc = .error e) :
    (loadCategory env st S f).1 =
      .ok ((doc.wallpapers.getD []).map transformWallpaperUrls) := by
  simp [loadCategory, hmiss, hcfg, hfetch, henc, hdec]

theorem loadCategory_decode_degrades_witness :
    (cacheLookup initialState.categoryCache (catKey "desktop" "g.json") = none ∧
      testEnv.fetchCatDoc "data/desktop/categories/g.json" =
        .ok ⟨some "BLOB1", none, some [mkItem "g1"]⟩ ∧
      encodedOf (some "BLOB1") none = some "BLOB1" ∧
      testEnv.decodeCategory "BLOB1" = .error "decode failed") ∧
    (loadCategory testEnv initialState "desktop" "g.json").1 =
      .ok (([mkItem "g1"] : List Wallpaper).map transformWallpaperUrls) :=
  ⟨⟨by decide, by rfl, by decide, by rfl⟩, by
    have h := loadCategory_decode_degrades testEnv initialState "desktop" "g.json"
      ⟨"电脑壁纸", "data/desktop/index.json", "data/desktop/categories", "data/desktop.json"⟩
      ⟨some "BLOB1", none, some [mkItem "g1"]⟩ "BLOB1" "decode failed"
      (by decide) (by decide) (by rfl) (by decide) (by rfl)
    simpa using h⟩

/-- The concrete item refuting C2: it carries both a relative `path` and a
pre-resolved absolute `url`. -/
def wC2 : Wallpaper :=
  { id := "x"
    path := .jstr "a.jpg"
    thumbnailPath := .undef
    previewPath := .undef
    url := .jstr "X"
    thumbnailUrl := .undef
    previewUrl := .undef
    downloadUrl := .undef
    format := .jstr "JPG"
    size := 1 }

/-- C2 counterexample.  An item that carries the absolute `url` field AND the
relative `path` field does not get its `url` back verbatim: the relative path
takes precedence and a fresh URL is synthesized from it. -/
theorem transform_not_verbatim_when_path_present :
    wC2.url = JStr.jstr "X" ∧
    jsTruthy wC2.path = true ∧
    (transformWallpaperUrls wC2).url ≠ JStr.jstr "X" := by
  refine ⟨rfl, rfl, ?_⟩
  decide

/-- C2 as amended.  The pre-resolved absolute URL field is used verbatim only
when the corresponding relative path field is absent or empty (for the
preview, additionally only when the URL is non-empty — an empty `previewUrl`
is normalized to `null`); when a non-empty relative path is present, it takes
precedence and the URL is synthesized from the path. -/
theorem transform_verbatim_iff_no_path (w : Wallpaper) (s : String) :
    (jsTruthy w.path = false → w.url = .jstr s →
      (transformWallpaperUrls w).url = .jstr s) ∧
    (jsTruthy w.thumbnailPath = false → w.thumbnailUrl = .jstr s →
      (transformWallpaperUrls w).thumbnailUrl = .jstr s) ∧
    (jsTruthy w.previewPath = false → w.previewUrl = .jstr s → s ≠ "" →
      (transformWallpaperUrls w).previewUrl = .jstr s) ∧
    (jsTruthy w.path = false → w.downloadUrl = .jstr s →
      (transformWallpaperUrls w).downloadUrl = .jstr s) ∧
    (jsTruthy w.path = true →
      (transformWallpaperUrls w).url = .jstr (buildImageUrl w.path.str) ∧
      (transformWallpaperUrls w).downloadUrl = .jstr (buildImageUrl w.path.str)) := by
  refine ⟨?_, ?_, ?_, ?_, ?_⟩
  · intro h1 h2
    simp only [transformWallpaperUrls, h1, Bool.false_eq_true, if_false, h2, jsOr]
    split <;> simp_all [jsTruthy]
  · intro h1 h2
    simp only [transformWallpaperUrls, h1, Bool.false_eq_true, if_false, h2, jsOr]
    split <;> simp_all [jsTruthy]
  · intro h1 h2 h3
    simp only [transformWallpaperUrls, h1, Bool.false_eq_true, if_false, h2, jsOr]
    split <;> simp_all [jsTruthy]
  · intro h1 h2
    simp only [transformWallpaperUrls, h1, Bool.false_eq_true, if_false, h2, jsOr]
    split <;> simp_all [jsTruthy]
  · intro h1
    simp [transformWallpaperUrls, h1]

/-- The concrete item witnessing the amended C2: pre-resolved URLs, no paths. -/
def wC2v : Wallpaper :=
  { id := "y"
    path := .undef
    thumbnailPath := .jnull
    previewPath := .jstr ""
    url := .jstr "U"
    thumbnailUrl := .jstr "U"
    previewUrl := .jstr "U"
    downloadUrl := .jstr "U"
    format := .jstr "PNG"
    size := 2 }

theorem transform_verbatim_iff_no_path_witness :
    (jsTruthy wC2v.path = false ∧ wC2v.url = JStr.jstr "U" ∧
      jsTruthy wC2v.previewPath = false ∧ ("U" : String) ≠ "") ∧
    (transformWallpaperUrls wC2v).url = JStr.jstr "U" ∧
    (transformWallpaperUrls wC2v).previewUrl = JStr.jstr "U" :=
  ⟨⟨by decide, by decide, by decide, by decide⟩,
    (transform_verbatim_iff_no_path wC2v "U").1 (by decide) (by decide),
    (transform_verbatim_iff_no_path wC2v "U").2.2.1 (by decide) (by decide) (by decide)⟩

theorem invalid_msg_ne_empty (S : String) : ("Invalid series: " ++ S) ≠ "" := by
  intro h
  have h2 := congrArg String.length h
  rw [String.length_append] at h2
  have h3 : ("Invalid series: " : String).length = 16 := by decide
  have h4 : ("" : String).length = 0 := by decide
  omega

/-- C7.  Series-index cache idempotence: if one call to `loadSeriesIndex`
returns manifest `m`, a second sequential call returns the very same cached
value with the state (hence also the fetch log and the caches) completely
unchanged — no fetch, no re-decode — and the two calls together issued at
most one fetch. -/
theorem loadSeriesIndex_idempotent (env : Env) (st : StoreState) (S : String)
    (m : IndexData) (st1 : StoreState)
    (h : loadSeriesIndex env st S = (.ok m, st1)) :
    loadSeriesIndex env st1 S = (.ok m, st1) ∧
    st1.fetchLog.length ≤ st.fetchLog.length + 1 := by
  rcases hc : cacheLookup st.seriesIndexCache S with _ | cached
  · rcases hcfg : SERIES_CONFIG S with _ | cfg
    · simp [loadSeriesIndex, hc, hcfg] at h
    · rcases hf : env.fetchIndexDoc cfg.indexUrl with e | data
      · simp [loadSeriesIndex, hc, hcfg, hf] at h
      · simp only [loadSeriesIndex, hc, hcfg, hf, Prod.mk.injEq, Except.ok.injEq] at h
        obtain ⟨h1, h2⟩ := h
        constructor
        · have hl : cacheLookup st1.seriesIndexCache S = some m := by
            rw [← h2, ← h1]
            simp [cacheLookup_cons]
          simp [loadSeriesIndex, hl]
        · rw [← h2]
          simp
  · simp only [loadSeriesIndex, hc, Prod.mk.injEq, Except.ok.injEq] at h
    obtain ⟨h1, h2⟩ := h
    constructor
    · have hl : cacheLookup st1.seriesIndexCache S = some m := by
        rw [← h2, ← h1]
        exact hc
      simp [loadSeriesIndex, hl]
    · rw [← h2]
      omega

theorem loadSeriesIndex_idempotent_witness :
    loadSeriesIndex testEnv initialState "desktop" =
      (.ok idxPlain, (loadSeriesIndex testEnv initialState "desktop").2) ∧
    (loadSeriesIndex testEnv (loadSeriesIndex testEnv initialState "desktop").2 "desktop" =
        (.ok idxPlain, (loadSeriesIndex testEnv initialState "desktop").2) ∧
      (loadSeriesIndex testEnv initialState "desktop").2.fetchLog.length ≤
        initialState.fetchLog.length + 1) :=
  ⟨by rfl,
    loadSeriesIndex_idempotent testEnv initialState "desktop" idxPlain _ (by rfl)⟩

/-- C3 counterexample.  `initSeries('tablet')` does NOT reject: the invalid
series error is caught inside `initSeries`, so the returned promise fulfills
(`.ok ()`); the error lands in the error state instead. -/
theorem initSeries_tablet_resolves :
    (initSeries testEnv initialState "tablet" false).1 = Except.ok () ∧
    (initSeries testEnv initialState "tablet" false).2.error =
      some "Invalid series: tablet" ∧
    (initSeries testEnv initialState "tablet" false).2.wallpapers = [] :=
  ⟨by rfl, by rfl, by rfl⟩

/-- C3 as amended.  For a series id absent from the static configuration,
`initSeries` resolves (the `InvalidSeriesError` thrown by `loadSeriesIndex`
is caught), the error state is set to the non-empty message
`"Invalid series: <id>"`, and the merged list is left empty. -/
theorem initSeries_invalid_series (env : Env) (st : StoreState) (S : String)
    (hS : SERIES_CONFIG S = none)
    (hc : cacheLookup st.seriesIndexCache S = none)
    (hcur : st.currentLoadedSeries ≠ S) :
    (initSeries env st S false).1 = .ok () ∧
    (initSeries env st S false).2.error = some ("Invalid series: " ++ S) ∧
    ("Invalid series: " ++ S) ≠ "" ∧
    (initSeries env st S false).2.wallpapers = [] ∧
    (initSeries env st S false).2.loading = false := by
  have hcond : (!false && st.currentLoadedSeries == S &&
      decide (st.wallpapers.length > 0)) = false := by
    simp [hcur]
  have hmsg := invalid_msg_ne_empty S
  simp only [initSeries, hcond, Bool.false_eq_true, if_false, loadSeriesIndex, hc, hS,
    errMessage, if_neg hmsg]
  simp [hmsg]

theorem initSeries_invalid_series_witness :
    (SERIES_CONFIG "tablet" = none ∧
      cacheLookup initialState.seriesIndexCache "tablet" = none ∧
      initialState.currentLoadedSeries ≠ "tablet") ∧
    ((initSeries testEnv initialState "tablet" false).1 = .ok () ∧
      (initSeries testEnv initialState "tablet" false).2.error =
        some ("Invalid series: " ++ "tablet") ∧
      ("Invalid series: " ++ "tablet") ≠ "" ∧
      (initSeries testEnv initialState "tablet" false).2.wallpapers = [] ∧
      (initSeries testEnv initialState "tablet" false).2.loading = false) :=
  ⟨⟨rfl, rfl, by decide⟩,
    initSeries_invalid_series testEnv initialState "tablet" rfl rfl (by decide)⟩

theorem charsPre_colon_iff (t : List Char) :
    ∀ (S f : List Char), (':' : Char) ∉ t → (':' : Char) ∉ S →
      (charsPre (S ++ [':']) (t ++ ':' :: f) = true ↔ t = S) := by
  induction t with
  | nil =>
    intro S f _ hS
    cases S with
    | nil => simp [charsPre]
    | cons c S' =>
      have hc : c ≠ ':' := fun h => hS (by simp [h])
      simp only [List.cons_append, List.nil_append, charsPre, Bool.and_eq_true, beq_iff_eq]
      constructor
      · rintro ⟨h1, _⟩
        exact absurd h1 hc
      · intro h
        exact absurd h (by simp)
  | cons a t' ih =>
    intro S f ht hS
    have ha : a ≠ ':' := fun h => ht (by simp [h])
    cases S with
    | nil =>
      simp only [List.nil_append, List.cons_append, charsPre, Bool.and_eq_true, beq_iff_eq]
      constructor
      · rintro ⟨h1, _⟩
        exact absurd h1.symm ha
      · intro h
        exact absurd h (by simp)
    | cons c S' =>
      have ht' : (':' : Char) ∉ t' := fun h => ht (List.mem_cons_of_mem _ h)
      have hS' : (':' : Char) ∉ S' := fun h => hS (List.mem_cons_of_mem _ h)
      simp only [List.cons_append, charsPre, Bool.and_eq_true, beq_iff_eq]
      simp only [List.append_eq]
      rw [ih S' f ht' hS', List.cons.injEq]
      constructor
      · rintro ⟨h1, h2⟩
        exact ⟨h1.symm, h2⟩
      · rintro ⟨h1, h2⟩
        exact ⟨h1.symm, h2⟩

theorem cacheLookup_filter {α : Type} (q : String → Bool) (l : List (String × α)) (k : String) :
    cacheLookup (l.filter fun kv => q kv.1) k =
      if q k then cacheLookup l k else none := by
  induction l with
  | nil => simp [cacheLookup]
  | cons kv rest ih =>
    rcases kv with ⟨k', v'⟩
    by_cases hq : q k'
    · rw [List.filter_cons_of_pos (by simpa using hq)]
      by_cases hk : k' = k
      · subst hk
        simp [cacheLookup_cons, hq]
      · simp [cacheLookup_cons, hk, ih]
    · rw [List.filter_cons_of_neg (by simpa using hq)]
      by_cases hk : k' = k
      · subst hk
        simp [cacheLookup_cons, ih, hq]
      · simp [cacheLookup_cons, hk, ih]

theorem strStartsWith_catKey (t f S : String)
    (ht : (':' : Char) ∉ t.data) (hS : (':' : Char) ∉ S.data) :
    strStartsWith (catKey t f) (S ++ ":") = true ↔ t = S := by
  have hdata : (catKey t f).data = t.data ++ ':' :: f.data := by
    simp only [catKey, String.data_append, List.append_assoc]
    rfl
  have hp : (S ++ ":").data = S.data ++ [':'] := by
    simp only [String.data_append]
  rw [strStartsWith, hdata, hp, charsPre_colon_iff t.data S.data f.data ht hS]
  constructor
  · intro h; exact String.ext h
  · intro h; rw [h]

/-- C8.  `clearCache(S)` for a colon-free series id removes exactly the series
index entry keyed `S` and exactly the category entries whose key's series
component is `S`; lookups for every other series id (and every other index
key) are unchanged.  Series ids contain no `':'` — the key format
`` `${seriesId}:${categoryFile}` `` relies on this. -/
theorem clearCache_isolates (st : StoreState) (S : String)
    (hS : (':' : Char) ∉ S.data) :
    (∀ k, cacheLookup (clearCache st (some S)).seriesIndexCache k =
      if k = S then none else cacheLookup st.seriesIndexCache k) ∧
    (∀ t f, (':' : Char) ∉ t.data →
      cacheLookup (clearCache st (some S)).categoryCache (catKey t f) =
        if t = S then none else cacheLookup st.categoryCache (catKey t f)) := by
  constructor
  · intro k
    rw [clearCache]
    rw [cacheLookup_filter (fun k' => !(k' == S)) st.seriesIndexCache k]
    by_cases hk : k = S
    · simp [hk]
    · simp [hk]
  · intro t f ht
    rw [clearCache]
    rw [cacheLookup_filter (fun k' => !(strStartsWith k' (S ++ ":"))) st.categoryCache (catKey t f)]
    by_cases hts : t = S
    · subst hts
      have htrue : strStartsWith (catKey t f) (t ++ ":") = true :=
        (strStartsWith_catKey t f t ht ht).mpr rfl
      simp [htrue]
    · have hfalse : strStartsWith (catKey t f) (S ++ ":") = false := by
        rcases hb : strStartsWith (catKey t f) (S ++ ":") with _ | _
        · rfl
        · exact absurd ((strStartsWith_catKey t f S ht hS).mp hb) hts
      simp [hts, hfalse]

/-- A two-series cache state for exercising `clearCache`. -/
def stC8 : StoreState :=
  { initialState with
    seriesIndexCache := [("desktop", idxPlain), ("mobile", idxPlain)]
    categoryCache :=
      [(catKey "desktop" "a.json", [mkItem "a1"]), (catKey "mobile" "a.json", [mkItem "m1"])] }

theorem clearCache_isolates_witness :
    ((':' : Char) ∉ ("desktop" : String).data ∧
      (':' : Char) ∉ ("mobile" : String).data) ∧
    cacheLookup (clearCache stC8 (some "desktop")).seriesIndexCache "mobile" =
      (if "mobile" = "desktop" then none else cacheLookup stC8.seriesIndexCache "mobile") ∧
    cacheLookup (clearCache stC8 (some "desktop")).categoryCache (catKey "mobile" "a.json") =
      (if "mobile" = "desktop" then none
        else cacheLookup stC8.categoryCache (catKey "mobile" "a.json")) ∧
    cacheLookup (clearCache stC8 (some "desktop")).categoryCache (catKey "desktop" "a.json") =
      (if "desktop" = "desktop" then none
        else cacheLookup stC8.categoryCache (catKey "desktop" "a.json")) :=
  ⟨⟨by decide, by decide⟩,
    (clearCache_isolates stC8 "desktop" (by decide)).1 "mobile",
    (clearCache_isolates stC8 "desktop" (by decide)).2 "mobile" "a.json" (by decide),
    (clearCache_isolates stC8 "desktop" (by decide)).2 "desktop" "a.json" (by decide)⟩

theorem uiFrame_refl (st : StoreState) : uiFrame st st :=
  ⟨rfl, rfl, rfl, rfl, rfl, rfl, rfl, rfl⟩

theorem uiFrame_trans {a b c : StoreState} (h1 : uiFrame a b) (h2 : uiFrame b c) :
    uiFrame a c := by
  obtain ⟨p1, p2, p3, p4, p5, p6, p7, p8⟩ := h1
  obtain ⟨q1, q2, q3, q4, q5, q6, q7, q8⟩ := h2
  exact ⟨q1.trans p1, q2.trans p2, q3.trans p3, q4.trans p4,
    q5.trans p5, q6.trans p6, q7.trans p7, q8.trans p8⟩

theorem loadCategory_uiFrame (env : Env) (st : StoreState) (S f : String) :
    uiFrame st (loadCategory env st S f).2 := by
  rcases hc : cacheLookup st.categoryCache (catKey S f) with _ | cached
  · rcases hcfg : SERIES_CONFIG S with _ | cfg
    · simp [loadCategory, hc, hcfg, uiFrame]
    · rcases hf : env.fetchCatDoc (cfg.categoryBaseUrl ++ "/" ++ f) with e | data
      · simp [loadCategory, hc, hcfg, hf, uiFrame]
      · simp [loadCategory, hc, hcfg, hf, uiFrame]
  · simp [loadCategory, hc, uiFrame]

theorem runBatch_snd (env : Env) (S : String) (c : Category) (rest : List Category)
    (st : StoreState) :
    (runBatch env S st (c :: rest)).2 =
      (runBatch env S (loadCategory env st S c.file).2 rest).2 := by
  simp only [runBatch]
  rcases h1 : loadCategory env st S c.file with ⟨r, st1⟩
  rcases h2 : runBatch env S st1 rest with ⟨rs, st2⟩
  rcases r with e | l <;> rcases rs with e2 | ls <;> simp [h1, h2]

theorem runBatch_uiFrame (env : Env) (S : String) :
    ∀ (b : List Category) (st : StoreState), uiFrame st (runBatch env S st b).2 := by
  intro b
  induction b with
  | nil => intro st; exact uiFrame_refl st
  | cons c rest ih =>
    intro st
    rw [runBatch_snd]
    exact uiFrame_trans (loadCategory_uiFrame env st S c.file)
      (ih (loadCategory env st S c.file).2)

/-- C1 counterexample.  In a batch where `d.json` loads fine and `e.json`
fails, the merged list gains nothing: the `Promise.all` rejection makes the
whole batch be skipped, so even the succeeding category's items are NOT
appended. -/
theorem batch_failure_drops_succeeded :
    (loadCategory testEnv initialState "desktop" "d.json").1 =
      .ok (([mkItem "d1"] : List Wallpaper).map transformWallpaperUrls) ∧
    (loadRemainingCategories testEnv initialState "desktop"
      [⟨"d.json"⟩, ⟨"e.json"⟩]).wallpapers = [] :=
  ⟨by rfl, by rfl⟩

/-- C1 as amended.  When any category load inside a batch fails, the whole
batch is dropped: the state after the batch has the merged list and the
loaded-file set unchanged (succeeding categories' items are not appended,
though their payloads stay in the category cache), and the loop continues
with the remaining batches from that state — the failure aborts nothing else. -/
theorem batch_failure_skips_batch_continues (env : Env) (S : String) (st : StoreState)
    (batch : List Category) (bs : List (List Category)) (e : String) (stF : StoreState)
    (h : runBatch env S st
        (batch.filter fun c => !(st.loadedCategories.contains c.file)) = (.error e, stF)) :
    bgFold env S st (batch :: bs) = bgFold env S stF bs ∧
    stF.wallpapers = st.wallpapers ∧
    stF.loadedCategories = st.loadedCategories := by
  have hsnd : (runBatch env S st
      (batch.filter fun c => !(st.loadedCategories.contains c.file))).2 = stF := by
    rw [h]
  have hfr := runBatch_uiFrame env S
    (batch.filter fun c => !(st.loadedCategories.contains c.file)) st
  rw [hsnd] at hfr
  by_cases hE : (batch.filter fun c => !(st.loadedCategories.contains c.file)).isEmpty
  · exfalso
    rw [List.isEmpty_iff.mp hE] at h
    simp [runBatch] at h
  · have hpb : processBatch env S st batch = stF := by
      simp only [processBatch]
      rw [if_neg (by simpa using hE), h]
    exact ⟨by simp [bgFold, hpb], hfr.1, hfr.2.1⟩

theorem batch_failure_skips_batch_continues_witness :
    runBatch testEnv "desktop" initialState
        (([⟨"d.json"⟩, ⟨"e.json"⟩] : List Category).filter
          fun c => !(initialState.loadedCategories.contains c.file)) =
      (.error "HTTP error! status: 500",
        (runBatch testEnv "desktop" initialState
          (([⟨"d.json"⟩, ⟨"e.json"⟩] : List Category).filter
            fun c => !(initialState.loadedCategories.contains c.file))).2) ∧
    (bgFold testEnv "desktop" initialState [[⟨"d.json"⟩, ⟨"e.json"⟩]] =
        bgFold testEnv "desktop"
          (runBatch testEnv "desktop" initialState
            (([⟨"d.json"⟩, ⟨"e.json"⟩] : List Category).filter
              fun c => !(initialState.loadedCategories.contains c.file))).2 [] ∧
      (runBatch testEnv "desktop" initialState
        (([⟨"d.json"⟩, ⟨"e.json"⟩] : List Category).filter
          fun c => !(initialState.loadedCategories.contains c.file))).2.wallpapers =
        initialState.wallpapers ∧
      (runBatch testEnv "desktop" initialState
        (([⟨"d.json"⟩, ⟨"e.json"⟩] : List Category).filter
          fun c => !(initialState.loadedCategories.contains c.file))).2.loadedCategories =
        initialState.loadedCategories) :=
  ⟨by rfl,
    batch_failure_skips_batch_continues testEnv "desktop" initialState
      [⟨"d.json"⟩, ⟨"e.json"⟩] [] "HTTP error! status: 500" _ (by rfl)⟩

theorem catKey_inj (S f f' : String) (h : catKey S f = catKey S f') : f = f' := by
  have hd := congrArg String.data h
  simp only [catKey, String.data_append, List.append_assoc] at hd
  exact String.ext (List.append_cancel_left (List.append_cancel_left hd))

theorem loadCategory_ok (env : Env) (S : String) (cfg : SeriesConfig) (st : StoreState)
    (f : String)
    (hcfg : SERIES_CONFIG S = some cfg)
    (hfetch : ∃ d, env.fetchCatDoc (cfg.categoryBaseUrl ++ "/" ++ f) = .ok d)
    (hcache : cacheOK env cfg S st) :
    (loadCategory env st S f).1 = .ok (itemsFromEnv env cfg f) ∧
    cacheOK env cfg S (loadCategory env st S f).2 := by
  obtain ⟨d, hd⟩ := hfetch
  rcases hc : cacheLookup st.categoryCache (catKey S f) with _ | cached
  · constructor
    · simp only [loadCategory, hc, hcfg, hd]
      simp [itemsFromEnv, hd]
    · intro f'
      simp only [loadCategory, hc, hcfg, hd]
      rw [cacheLookup_cons]
      by_cases hk : catKey S f = catKey S f'
      · right
        obtain rfl : f = f' := catKey_inj S f f' hk
        rw [if_pos hk]
        simp [itemsFromEnv, hd]
      · rw [if_neg hk]
        exact hcache f'
  · rcases hcache f with hnone | hsome
    · rw [hc] at hnone
      cases hnone
    · rw [hc] at hsome
      have hcv : cached = itemsFromEnv env cfg f := by
        injection hsome
      constructor
      · simp [loadCategory, hc, hcv]
      · simp only [loadCategory, hc]
        exact hcache

theorem runBatch_cons (env : Env) (S : String) (c : Category) (rest : List Category)
    (st : StoreState) :
    runBatch env S st (c :: rest) =
      (match (loadCategory env st S c.file).1,
          (runBatch env S (loadCategory env st S c.file).2 rest).1 with
        | .ok l, .ok ls => .ok (l :: ls)
        | .error e, _ => .error e
        | .ok _, .error e => .error e,
       (runBatch env S (loadCategory env st S c.file).2 rest).2) := by
  simp only [runBatch]
  rcases h1 : loadCategory env st S c.file with ⟨r, st1⟩
  rcases h2 : runBatch env S st1 rest with ⟨rs, st2⟩
  rcases r with e | l <;> rcases rs with e2 | ls <;> simp [h1, h2]

theorem runBatch_ok (env : Env) (S : String) (cfg : SeriesConfig)
    (hcfg : SERIES_CONFIG S = some cfg) :
    ∀ (b : List Category) (st : StoreState),
      (∀ c ∈ b, fetchOK env cfg c) → cacheOK env cfg S st →
      (runBatch env S st b).1 = .ok (b.map fun c => itemsFromEnv env cfg c.file) ∧
      cacheOK env cfg S (runBatch env S st b).2 := by
  intro b
  induction b with
  | nil =>
    intro st _ hcache
    exact ⟨rfl, hcache⟩
  | cons c rest ih =>
    intro st hb hcache
    obtain ⟨hr1, hcache1⟩ :=
      loadCategory_ok env S cfg st c.file hcfg (hb c (List.mem_cons_self c rest)) hcache
    obtain ⟨hr2, hcache2⟩ :=
      ih (loadCategory env st S c.file).2
        (fun c' hc' => hb c' (List.mem_cons_of_mem _ hc')) hcache1
    rw [runBatch_cons, hr1, hr2]
    exact ⟨by simp, hcache2⟩

theorem processBatch_ok (env : Env) (S : String) (cfg : SeriesConfig)
    (hcfg : SERIES_CONFIG S = some cfg) (b : List Category) (st : StoreState)
    (hb : ∀ c ∈ b, fetchOK env cfg c)
    (hcache : cacheOK env cfg S st)
    (hnl : ∀ c ∈ b, c.file ∉ st.loadedCategories) :
    (processBatch env S st b).wallpapers =
      st.wallpapers ++ (b.map fun c => itemsFromEnv env cfg c.file).flatten ∧
    (processBatch env S st b).loadedCategories =
      st.loadedCategories ++ b.map (fun (c : Category) => c.file) ∧
    cacheOK env cfg S (processBatch env S st b) ∧
    (processBatch env S st b).error = st.error ∧
    (processBatch env S st b).currentLoadedSeries = st.currentLoadedSeries ∧
    (processBatch env S st b).loading = st.loading ∧
    (processBatch env S st b).isBackgroundLoading = st.isBackgroundLoading ∧
    (processBatch env S st b).initialLoadedCount = st.initialLoadedCount ∧
    (processBatch env S st b).seriesIndexCache = st.seriesIndexCache := by
  rcases b with _ | ⟨c0, brest⟩
  · refine ⟨by simp [processBatch], by simp [processBatch], ?_, by simp [processBatch],
      by simp [processBatch], by simp [processBatch], by simp [processBatch],
      by simp [processBatch], by simp [processBatch]⟩
    simpa [processBatch] using hcache
  · have hfilter : (c0 :: brest).filter
        (fun c => !(st.loadedCategories.contains c.file)) = c0 :: brest := by
      refine List.filter_eq_self.mpr ?_
      intro a ha
      simpa using hnl a ha
    obtain ⟨hr, hcache'⟩ := runBatch_ok env S cfg hcfg (c0 :: brest) st hb hcache
    have hfr := runBatch_uiFrame env S (c0 :: brest) st
    rcases hrb : runBatch env S st (c0 :: brest) with ⟨r, st1⟩
    rw [hrb] at hr hcache' hfr
    simp only at hr hcache' hfr
    subst hr
    obtain ⟨f1, f2, f3, f4, f5, f6, f7, f8⟩ := hfr
    have hpb : processBatch env S st (c0 :: brest) =
        { st1 with
          wallpapers := st1.wallpapers ++
            ((c0 :: brest).map fun c => itemsFromEnv env cfg c.file).flatten
          loadedCategories := st1.loadedCategories ++
            (c0 :: brest).map (fun (c : Category) => c.file) } := by
      simp only [processBatch, hfilter, List.isEmpty_cons, Bool.false_eq_true, if_false, hrb]
    rw [hpb]
    exact ⟨by simp [f1], by simp [f2], hcache', by simpa using f5, by simpa using f3,
      by simpa using f4, by simpa using f6, by simpa using f7, by simpa using f8⟩

theorem bgFold_ok (env : Env) (S : String) (cfg : SeriesConfig)
    (hcfg : SERIES_CONFIG S = some cfg) :
    ∀ (bs : List (List Category)) (st : StoreState),
      (∀ c ∈ bs.flatten, fetchOK env cfg c) →
      cacheOK env cfg S st →
      (∀ c ∈ bs.flatten, c.file ∉ st.loadedCategories) →
      (bs.flatten.map fun (c : Category) => c.file).Nodup →
      (bgFold env S st bs).wallpapers =
        st.wallpapers ++ (bs.flatten.map fun c => itemsFromEnv env cfg c.file).flatten ∧
      (bgFold env S st bs).loadedCategories =
        st.loadedCategories ++ bs.flatten.map (fun (c : Category) => c.file) ∧
      cacheOK env cfg S (bgFold env S st bs) ∧
      (bgFold env S st bs).error = st.error ∧
      (bgFold env S st bs).currentLoadedSeries = st.currentLoadedSeries ∧
      (bgFold env S st bs).loading = st.loading ∧
      (bgFold env S st bs).isBackgroundLoading = st.isBackgroundLoading ∧
      (bgFold env S st bs).initialLoadedCount = st.initialLoadedCount ∧
      (bgFold env S st bs).seriesIndexCache = st.seriesIndexCache := by
  intro bs
  induction bs with
  | nil =>
    intro st _ hcache _ _
    exact ⟨by simp [bgFold], by simp [bgFold], by simpa [bgFold] using hcache,
      rfl, rfl, rfl, rfl, rfl, rfl⟩
  | cons b rest ih =>
    intro st hfetch hcache hnl hnodup
    have hfb : ∀ c ∈ b, fetchOK env cfg c := fun c hc =>
      hfetch c (by simp [List.flatten_cons, hc])
    have hnlb : ∀ c ∈ b, c.file ∉ st.loadedCategories := fun c hc =>
      hnl c (by simp [List.flatten_cons, hc])
    obtain ⟨p1, p2, p3, p4, p5, p6, p7, p8, p9⟩ :=
      processBatch_ok env S cfg hcfg b st hfb hcache hnlb
    have hdisj : ∀ c ∈ rest.flatten, c.file ∉ b.map (fun (c : Category) => c.file) := by
      intro c hc
      have hnd := hnodup
      rw [List.flatten_cons, List.map_append] at hnd
      have hdj := (List.nodup_append.mp hnd).2.2
      intro hmem
      exact hdj hmem (List.mem_map_of_mem _ hc)
    have hfr : ∀ c ∈ rest.flatten, fetchOK env cfg c := fun c hc =>
      hfetch c (by simp [List.flatten_cons, hc])
    have hnr : ∀ c ∈ rest.flatten, c.file ∉ (processBatch env S st b).loadedCategories := by
      intro c hc
      rw [p2]
      intro hmem
      rcases List.mem_append.mp hmem with hm | hm
      · exact hnl c (by simp [List.flatten_cons, hc]) hm
      · exact hdisj c hc hm
    have hndr : (rest.flatten.map fun (c : Category) => c.file).Nodup := by
      have hnd := hnodup
      rw [List.flatten_cons, List.map_append] at hnd
      exact (List.nodup_append.mp hnd).2.1
    obtain ⟨q1, q2, q3, q4, q5, q6, q7, q8, q9⟩ :=
      ih (processBatch env S st b) hfr p3 hnr hndr
    have hgf : bgFold env S st (b :: rest) = bgFold env S (processBatch env S st b) rest := by
      simp [bgFold]
    rw [hgf]
    refine ⟨?_, ?_, q3, q4.trans p4, q5.trans p5, q6.trans p6, q7.trans p7,
      q8.trans p8, q9.trans p9⟩
    · rw [q1, p1, List.flatten_cons, List.map_append, List.flatten_append, List.append_assoc]
    · rw [q2, p2, List.flatten_cons, List.map_append, List.append_assoc]

theorem batchesOf3_flatten (l : List Category) : (batchesOf3 l).flatten = l := by
  induction l using batchesOf3.induct with
  | case1 => rfl
  | case2 a => rfl
  | case3 a b => rfl
  | case4 a b c rest ih => simp [batchesOf3, ih]

/-- The combined effect of `loadRemainingCategories` when every involved
category's fetch succeeds: every category is appended in order and marked
loaded, the background flag is cleared and the stable count is refreshed. -/
theorem loadRemainingCategories_ok (env : Env) (S : String) (cfg : SeriesConfig)
    (hcfg : SERIES_CONFIG S = some cfg) (cats : List Category) (st : StoreState)
    (hfetch : ∀ c ∈ cats, fetchOK env cfg c)
    (hcache : cacheOK env cfg S st)
    (hnl : ∀ c ∈ cats, c.file ∉ st.loadedCategories)
    (hnodup : (cats.map fun (c : Category) => c.file).Nodup) :
    (loadRemainingCategories env st S cats).wallpapers =
      st.wallpapers ++ (cats.map fun c => itemsFromEnv env cfg c.file).flatten ∧
    (loadRemainingCategories env st S cats).loadedCategories =
      st.loadedCategories ++ cats.map (fun (c : Category) => c.file) ∧
    cacheOK env cfg S (loadRemainingCategories env st S cats) ∧
    (loadRemainingCategories env st S cats).isBackgroundLoading = false ∧
    (loadRemainingCategories env st S cats).initialLoadedCount =
      (loadRemainingCategories env st S cats).wallpapers.length ∧
    (loadRemainingCategories env st S cats).error = st.error ∧
    (loadRemainingCategories env st S cats).currentLoadedSeries = st.currentLoadedSeries ∧
    (loadRemainingCategories env st S cats).loading = st.loading ∧
    (loadRemainingCategories env st S cats).seriesIndexCache = st.seriesIndexCache := by
  have hfl := batchesOf3_flatten cats
  obtain ⟨p1, p2, p3, p4, p5, p6, p7, p8, p9⟩ :=
    bgFold_ok env S cfg hcfg (batchesOf3 cats) st
      (by rw [hfl]; exact hfetch) hcache (by rw [hfl]; exact hnl) (by rw [hfl]; exact hnodup)
  rw [hfl] at p1 p2
  refine ⟨?_, ?_, ?_, rfl, ?_, ?_, ?_, ?_, ?_⟩
  · simpa [loadRemainingCategories, finalizeBg] using p1
  · simpa [loadRemainingCategories, finalizeBg] using p2
  · simpa [loadRemainingCategories, finalizeBg] using p3
  · simp [loadRemainingCategories, finalizeBg]
  · simpa [loadRemainingCategories, finalizeBg] using p4
  · simpa [loadRemainingCategories, finalizeBg] using p5
  · simpa [loadRemainingCategories, finalizeBg] using p6
  · simpa [loadRemainingCategories, finalizeBg] using p9

/-- C4 counterexample.  With the series index not yet cached,
`loadAllCategories` resolves after merely fetching and caching the index:
no category is loaded and nothing is merged, although the manifest names a
category (`a.json`) whose document is available and non-empty. -/
theorem loadAll_uncached_index_loads_nothing :
    (loadAllCategories testEnv initialState "desktop").1 = .ok () ∧
    (loadAllCategories testEnv initialState "desktop").2.wallpapers = [] ∧
    (loadAllCategories testEnv initialState "desktop").2.loadedCategories = [] ∧
    cacheLookup (loadAllCategories testEnv initialState "desktop").2.seriesIndexCache
      "desktop" = some idxPlain ∧
    idxPlain.categories ≠ [] ∧
    (loadCategory testEnv (loadAllCategories testEnv initialState "desktop").2
      "desktop" "a.json").1 =
      .ok (([mkItem "a1"] : List Wallpaper).map transformWallpaperUrls) :=
  ⟨by rfl, by rfl, by rfl, by rfl, by decide, by rfl⟩

/-- C4 as amended.  When the series index IS already cached,
`loadAllCategories` resolves with every category of the manifest marked
loaded and the not-yet-loaded categories' items appended to the merged list
in manifest order (assuming their fetches succeed and the manifest's files
are distinct).  When the index is not cached, the call only fetches and
caches the index and returns without loading any category (see the
counterexample). -/
theorem loadAllCategories_loads_unloaded (env : Env) (S : String) (cfg : SeriesConfig)
    (idx : IndexData) (st : StoreState)
    (hcfg : SERIES_CONFIG S = some cfg)
    (hidx : cacheLookup st.seriesIndexCache S = some idx)
    (hcache : cacheOK env cfg S st)
    (hfetch : ∀ c ∈ idx.categories, c.file ∉ st.loadedCategories → fetchOK env cfg c)
    (hnodup : (idx.categories.map fun (c : Category) => c.file).Nodup) :
    (loadAllCategories env st S).1 = .ok () ∧
    (∀ c ∈ idx.categories, c.file ∈ (loadAllCategories env st S).2.loadedCategories) ∧
    (loadAllCategories env st S).2.wallpapers =
      st.wallpapers ++
        ((idx.categories.filter fun c => !(st.loadedCategories.contains c.file)).map
          fun c => itemsFromEnv env cfg c.file).flatten := by
  by_cases hE : (idx.categories.filter
      fun c => !(st.loadedCategories.contains c.file)).isEmpty
  · have hnilf : idx.categories.filter
        (fun c => !(st.loadedCategories.contains c.file)) = [] := List.isEmpty_iff.mp hE
    have hall : ∀ c ∈ idx.categories, c.file ∈ st.loadedCategories := by
      intro c hc
      have := List.filter_eq_nil_iff.mp hnilf c hc
      simpa using this
    have hla : loadAllCategories env st S = (.ok (), st) := by
      simp only [loadAllCategories, hidx, hnilf, List.isEmpty_nil, if_true]
    rw [hla]
    exact ⟨rfl, hall, by rw [hnilf]; simp⟩
  · have hfe : ∀ c ∈ idx.categories.filter
        (fun c => !(st.loadedCategories.contains c.file)), fetchOK env cfg c := by
      intro c hc
      have h1 := List.mem_of_mem_filter hc
      have h2 := List.of_mem_filter hc
      exact hfetch c h1 (by simpa using h2)
    have hnl : ∀ c ∈ idx.categories.filter
        (fun c => !(st.loadedCategories.contains c.file)),
        c.file ∉ ({ st with loading := true } : StoreState).loadedCategories := by
      intro c hc
      have h2 := List.of_mem_filter hc
      simpa using h2
    have hnd : ((idx.categories.filter
        (fun c => !(st.loadedCategories.contains c.file))).map
          fun (c : Category) => c.file).Nodup := by
      refine List.Nodup.sublist ?_ hnodup
      exact List.Sublist.map _ (List.filter_sublist idx.categories)
    obtain ⟨p1, p2, p3, p4, p5, p6, p7, p8, p9⟩ :=
      loadRemainingCategories_ok env S cfg hcfg
        (idx.categories.filter fun c => !(st.loadedCategories.contains c.file))
        { st with loading := true } hfe hcache hnl hnd
    have hla : loadAllCategories env st S =
        (.ok (), { loadRemainingCategories env { st with loading := true } S
          (idx.categories.filter fun c => !(st.loadedCategories.contains c.file))
          with loading := false }) := by
      simp only [loadAllCategories, hidx]
      rw [if_neg (by simpa using hE)]
    rw [hla]
    refine ⟨rfl, ?_, by simpa using p1⟩
    intro c hc
    show c.file ∈ (loadRemainingCategories env { st with loading := true } S
      (idx.categories.filter fun c => !(st.loadedCategories.contains c.file))).loadedCategories
    rw [p2]
    by_cases hm : c.file ∈ st.loadedCategories
    · exact List.mem_append.mpr (Or.inl hm)
    · refine List.mem_append.mpr (Or.inr ?_)
      refine List.mem_map_of_mem _ ?_
      exact List.mem_filter.mpr ⟨hc, by simpa using hm⟩

/-- The desktop entry of the static series configuration. -/
def cfgDesktop : SeriesConfig :=
  ⟨"电脑壁纸", "data/desktop/index.json", "data/desktop/categories", "data/desktop.json"⟩

/-- A state whose desktop series index is already cached. -/
def stC4 : StoreState :=
  { initialState with seriesIndexCache := [("desktop", idxPlain)] }

theorem loadAllCategories_loads_unloaded_witness :
    (SERIES_CONFIG "desktop" = some cfgDesktop ∧
      cacheLookup stC4.seriesIndexCache "desktop" = some idxPlain ∧
      cacheOK testEnv cfgDesktop "desktop" stC4 ∧
      (idxPlain.categories.map fun (c : Category) => c.file).Nodup) ∧
    ((loadAllCategories testEnv stC4 "desktop").1 = .ok () ∧
      (⟨"a.json"⟩ : Category).file ∈
        (loadAllCategories testEnv stC4 "desktop").2.loadedCategories ∧
      (loadAllCategories testEnv stC4 "desktop").2.wallpapers =
        stC4.wallpapers ++
          ((idxPlain.categories.filter
            fun c => !(stC4.loadedCategories.contains c.file)).map
              fun c => itemsFromEnv testEnv cfgDesktop c.file).flatten) := by
  have hfetch : ∀ c ∈ idxPlain.categories,
      c.file ∉ stC4.loadedCategories → fetchOK testEnv cfgDesktop c := by
    intro c hc _
    simp only [idxPlain, List.mem_cons, List.not_mem_nil, or_false] at hc
    rcases hc with rfl | rfl | rfl | rfl
    · exact ⟨_, rfl⟩
    · exact ⟨_, rfl⟩
    · exact ⟨_, rfl⟩
    · exact ⟨_, rfl⟩
  have hcache : cacheOK testEnv cfgDesktop "desktop" stC4 := fun _ => Or.inl rfl
  have h := loadAllCategories_loads_unloaded testEnv "desktop" cfgDesktop idxPlain stC4
    rfl rfl hcache hfetch (by decide)
  exact ⟨⟨rfl, rfl, hcache, by decide⟩, h.1, h.2.1 ⟨"a.json"⟩ (by decide), h.2.2⟩

theorem loadSeriesIndex_miss (env : Env) (st : StoreState) (S : String)
    (cfg : SeriesConfig) (doc : IndexDoc)
    (hc : cacheLookup st.seriesIndexCache S = none)
    (hcfg : SERIES_CONFIG S = some cfg)
    (hf : env.fetchIndexDoc cfg.indexUrl = .ok doc) :
    loadSeriesIndex env st S =
      (.ok (indexFromDoc env doc),
        { st with
          fetchLog := st.fetchLog ++ [cfg.indexUrl]
          seriesIndexCache := (S, indexFromDoc env doc) :: st.seriesIndexCache }) := by
  simp only [loadSeriesIndex, hc, hcfg, hf, indexFromDoc]


/-- C5.  Background completeness from a fresh activation: for a manifest whose
category files are pairwise distinct, when the index fetch and every category
fetch succeed, the state after `initSeries` (with its background loading run
to completion) has the merged list equal to the concatenation, in manifest
order, of every category's item list — each item exactly once — with
`isBackgroundLoading` cleared and `initialLoadedCount` equal to the final
merged length. -/
theorem initSeries_background_completeness (env : Env) (S : String) (cfg : SeriesConfig)
    (doc : IndexDoc)
    (hcfg : SERIES_CONFIG S = some cfg)
    (hidx : env.fetchIndexDoc cfg.indexUrl = .ok doc)
    (hfetch : ∀ c ∈ (indexFromDoc env doc).categories, fetchOK env cfg c)
    (hnodup : ((indexFromDoc env doc).categories.map fun (c : Category) => c.file).Nodup) :
    (initSeries env initialState S false).1 = .ok () ∧
    (initSeries env initialState S false).2.wallpapers =
      ((indexFromDoc env doc).categories.map fun c => itemsFromEnv env cfg c.file).flatten ∧
    (initSeries env initialState S false).2.isBackgroundLoading = false ∧
    (initSeries env initialState S false).2.initialLoadedCount =
      (initSeries env initialState S false).2.wallpapers.length := by
  have hsplitcats := List.take_append_drop 3 (indexFromDoc env doc).categories
  simp only [initSeries]
  split
  · next h => simp [initialState] at h
  · next h =>
    rw [loadSeriesIndex_miss env
      ⟨initialState.seriesIndexCache, initialState.categoryCache, initialState.wallpapers,
        S, [], true, none, false, 0, initialState.fetchLog⟩
      S cfg doc rfl hcfg hidx]
    dsimp only
    set st1e : StoreState :=
      { seriesIndexCache := (S, indexFromDoc env doc) :: initialState.seriesIndexCache,
        categoryCache := initialState.categoryCache, wallpapers := initialState.wallpapers,
        currentLoadedSeries := S, loadedCategories := [], loading := true, error := none,
        isBackgroundLoading := false, initialLoadedCount := 0,
        fetchLog := initialState.fetchLog ++ [cfg.indexUrl] } with hst1e
    have hcache1 : cacheOK env cfg S st1e := fun f => Or.inl rfl
    have hfetchTake : ∀ c ∈ (indexFromDoc env doc).categories.take 3, fetchOK env cfg c :=
      fun c hc => hfetch c (List.mem_of_mem_take hc)
    obtain ⟨hr, hcache2⟩ := runBatch_ok env S cfg hcfg
      ((indexFromDoc env doc).categories.take 3) st1e hfetchTake hcache1
    have hfr := runBatch_uiFrame env S ((indexFromDoc env doc).categories.take 3) st1e
    rcases hrb : runBatch env S st1e ((indexFromDoc env doc).categories.take 3) with ⟨r, st2⟩
    rw [hrb] at hr hcache2 hfr
    simp only at hr
    subst hr
    dsimp only
    obtain ⟨f1, f2, f3, f4, f5, f6, f7, f8⟩ := hfr
    simp only at f1 f2 f3 f4 f5 f6 f7 f8 hcache2
    cases hrem : ((indexFromDoc env doc).categories.drop 3).isEmpty with
    | true =>
      have hdrop : (indexFromDoc env doc).categories.drop 3 = [] := List.isEmpty_iff.mp hrem
      have htake : (indexFromDoc env doc).categories.take 3 =
          (indexFromDoc env doc).categories := by
        rw [hdrop, List.append_nil] at hsplitcats
        exact hsplitcats
      rw [if_pos rfl]
      dsimp only
      refine ⟨rfl, ?_, ?_, rfl⟩
      · rw [htake]
      · rw [f6]
    | false =>
      rw [if_neg Bool.false_ne_true]
      dsimp only
      set st5e : StoreState :=
        { seriesIndexCache := st2.seriesIndexCache, categoryCache := st2.categoryCache,
          wallpapers := (List.map (fun c => itemsFromEnv env cfg c.file)
            (List.take 3 (indexFromDoc env doc).categories)).flatten,
          currentLoadedSeries := st2.currentLoadedSeries,
          loadedCategories := st2.loadedCategories ++
            List.map (fun c => c.file) (List.take 3 (indexFromDoc env doc).categories),
          loading := st2.loading, error := st2.error, isBackgroundLoading := true,
          initialLoadedCount := (List.map (fun c => itemsFromEnv env cfg c.file)
            (List.take 3 (indexFromDoc env doc).categories)).flatten.length,
          fetchLog := st2.fetchLog } with hst5e
      have hcache5 : cacheOK env cfg S st5e := fun f => hcache2 f
      have hfetchDrop : ∀ c ∈ (indexFromDoc env doc).categories.drop 3, fetchOK env cfg c :=
        fun c hc => hfetch c (List.drop_subset 3 _ hc)
      have hnodup2 : ((List.map (fun (c : Category) => c.file)
            ((indexFromDoc env doc).categories.take 3)) ++
          (List.map (fun (c : Category) => c.file)
            ((indexFromDoc env doc).categories.drop 3))).Nodup := by
        rw [← List.map_append, hsplitcats]
        exact hnodup
      have hnl : ∀ c ∈ (indexFromDoc env doc).categories.drop 3,
          c.file ∉ st5e.loadedCategories := by
        intro c hc
        have hdisj := (List.nodup_append.mp hnodup2).2.2
        intro hmem
        rw [hst5e] at hmem
        dsimp only at hmem
        rw [f2] at hmem
        simp only [List.nil_append] at hmem
        exact hdisj hmem (List.mem_map_of_mem _ hc)
      have hnodupDrop : ((List.map (fun (c : Category) => c.file)
          ((indexFromDoc env doc).categories.drop 3))).Nodup :=
        (List.nodup_append.mp hnodup2).2.1
      obtain ⟨q1, q2, q3, q4, q5, q6, q7, q8, q9⟩ :=
        loadRemainingCategories_ok env S cfg hcfg
          ((indexFromDoc env doc).categories.drop 3) st5e hfetchDrop hcache5 hnl hnodupDrop
      refine ⟨rfl, ?_, ?_, ?_⟩
      · show (loadRemainingCategories env st5e S
            ((indexFromDoc env doc).categories.drop 3)).wallpapers = _
        rw [q1, hst5e]
        dsimp only
        rw [← List.flatten_append, ← List.map_append, hsplitcats]
      · show (loadRemainingCategories env st5e S
            ((indexFromDoc env doc).categories.drop 3)).isBackgroundLoading = false
        exact q4
      · show (loadRemainingCategories env st5e S
            ((indexFromDoc env doc).categories.drop 3)).initialLoadedCount = _
        exact q5

theorem initSeries_background_completeness_witness :
    (SERIES_CONFIG "desktop" = some cfgDesktop ∧
      testEnv.fetchIndexDoc cfgDesktop.indexUrl = .ok ⟨none, none, idxPlain⟩ ∧
      ((indexFromDoc testEnv ⟨none, none, idxPlain⟩).categories.map
        fun (c : Category) => c.file).Nodup) ∧
    ((initSeries testEnv initialState "desktop" false).1 = .ok () ∧
      (initSeries testEnv initialState "desktop" false).2.wallpapers =
        ((indexFromDoc testEnv ⟨none, none, idxPlain⟩).categories.map
          fun c => itemsFromEnv testEnv cfgDesktop c.file).flatten ∧
      (initSeries testEnv initialState "desktop" false).2.isBackgroundLoading = false ∧
      (initSeries testEnv initialState "desktop" false).2.initialLoadedCount =
        (initSeries testEnv initialState "desktop" false).2.wallpapers.length) := by
  have hcats : (indexFromDoc testEnv ⟨none, none, idxPlain⟩).categories =
      [⟨"a.json"⟩, ⟨"b.json"⟩, ⟨"c.json"⟩, ⟨"d.json"⟩] := rfl
  have hfetch : ∀ c ∈ (indexFromDoc testEnv ⟨none, none, idxPlain⟩).categories,
      fetchOK testEnv cfgDesktop c := by
    intro c hc
    rw [hcats] at hc
    simp only [List.mem_cons, List.not_mem_nil, or_false] at hc
    rcases hc with rfl | rfl | rfl | rfl
    · exact ⟨_, rfl⟩
    · exact ⟨_, rfl⟩
    · exact ⟨_, rfl⟩
    · exact ⟨_, rfl⟩
  exact ⟨⟨rfl, rfl, by decide⟩,
    initSeries_background_completeness testEnv "desktop" cfgDesktop ⟨none, none, idxPlain⟩
      rfl rfl hfetch (by decide)⟩
